import Mathlib

/-!
Verification development for the text2img-service rendering core
(`src/render.js`): the page pool (acquirePage / releasePage /
prewarmPagePool), the template cache (getTemplate / renderTemplate /
clearTemplateCache) and the render pipeline (render).

The JavaScript source is shallowly embedded:

* a puppeteer `Page` object is identified by the `Nat` id it received at
  creation time; the mutable module-level variables `pagePool`, `busyPages`
  and the per-page attributes (`viewport()`, `isClosed()`) form a
  `PoolState`;
* `pagePool.push(x)` / `pagePool.pop()` operate at the same end of the
  array, so the stack is modelled with the list head as the top;
* engine I/O (`setViewport`, `setContent`, `waitForFunction`, `evaluate`,
  `screenshot`, the reset `evaluate` in `releasePage` and `browser.newPage`)
  may succeed or reject; each call's outcome is supplied by an explicit
  oracle (`EngineOutcome`, and the `resetOk` / `replOk` flags);
* the EJS templating subsystem is external; `ejs.compile` is deterministic,
  so a cached compiled function is represented by the source string it was
  compiled from, and invoking it is `compile src data`.
-/

namespace Text2Img

/-- CONFIG.PAGE_POOL_SIZE from `src/render.js`. -/
def PAGE_POOL_SIZE : Nat := 16

/-- CONFIG.MAX_CONCURRENT from `src/render.js`. -/
def MAX_CONCURRENT : Nat := 16

/-- CONFIG.CACHE_TEMPLATES from `src/render.js`. -/
def CACHE_TEMPLATES : Bool := true

/-- The timeout (milliseconds) passed to `page.waitForFunction` in `render`. -/
def READINESS_TIMEOUT_MS : Nat := 3000

/-- A puppeteer viewport, as passed to `page.setViewport`. -/
structure Viewport where
  width : Nat
  height : Nat
  deviceScaleFactor : Nat
  deriving DecidableEq

/-- The viewport set by `createPage`: width 800, height 600, scale 2. -/
def defaultViewport : Viewport := ⟨800, 600, 2⟩

/-- The mutable pool state of `src/render.js`: the `pagePool` stack (head =
top, matching `push`/`pop` acting on the array's tail), the `busyPages` set,
the set of pages whose `isClosed()` is true, each page's current viewport,
the next fresh page id, and the number of `createPage` calls started from
`acquirePage` that have not yet resolved (in-flight creations). -/
structure PoolState where
  pagePool : List Nat
  busyPages : Finset Nat
  closedPages : Finset Nat
  viewport : Nat → Viewport
  nextId : Nat
  pending : Nat

/-- `createPage`: `browser.newPage()` returns a fresh page whose viewport is
set to `defaultViewport` (800 × 600, deviceScaleFactor 2). -/
def createPage (s : PoolState) : Nat × PoolState :=
  (s.nextId,
   { s with
      nextId := s.nextId + 1,
      viewport := Function.update s.viewport s.nextId defaultViewport })

/-- The `while (pagePool.length > 0)` loop of `acquirePage`: pop pages off
the stack, discarding closed ones, until an open page is found or the pool
is exhausted. Returns the popped open page (if any) and the remaining pool. -/
def popLoop : List Nat → Finset Nat → Option Nat × List Nat
  | [], _ => (none, [])
  | p :: rest, closed =>
      if p ∈ closed then popLoop rest closed else (some p, rest)

/-- `acquirePage`, one whole call executed without interleaving: pop an open
page from the pool, else create a new page when `busyPages.size <
MAX_CONCURRENT`, else block (modelled as returning `none` with no further
state change: the waiting loop mutates nothing until a release refills the
pool). Every successful acquisition inserts the page into `busyPages`. -/
def acquirePage (s : PoolState) : Option Nat × PoolState :=
  match popLoop s.pagePool s.closedPages with
  | (some p, rest) =>
      (some p, { s with pagePool := rest, busyPages := insert p s.busyPages })
  | (none, rest) =>
      if s.busyPages.card < MAX_CONCURRENT then
        let c := createPage { s with pagePool := rest }
        (some c.1, { c.2 with busyPages := insert c.1 c.2.busyPages })
      else
        (none, { s with pagePool := rest })

/-- `releasePage(page)`: delete from `busyPages`; if the page is closed stop;
otherwise run the reset `page.evaluate` (outcome `resetOk`). On success the
page is pushed back onto the pool. On failure the page is closed
(`page.close()`, errors swallowed) and, only when the pool is below
`PAGE_POOL_SIZE`, a replacement page is created by `await createPage()` —
the caller waits for it, and if `browser.newPage` rejects (outcome
`replOk = false`) the rejection propagates out of `releasePage`. -/
def releasePage (s : PoolState) (p : Nat) (resetOk replOk : Bool) :
    Except String Unit × PoolState :=
  let s1 := { s with busyPages := s.busyPages.erase p }
  if p ∈ s1.closedPages then (.ok (), s1)
  else if resetOk then (.ok (), { s1 with pagePool := p :: s1.pagePool })
  else
    let s2 := { s1 with closedPages := insert p s1.closedPages }
    if s2.pagePool.length < PAGE_POOL_SIZE then
      if replOk then
        let c := createPage s2
        (.ok (), { c.2 with pagePool := c.1 :: c.2.pagePool })
      else (.error ("newPage failed"), s2)
    else (.ok (), s2)

/-- `prewarmPagePool`: create `n` pages and push them all onto the pool. -/
def prewarmPagePool : PoolState → Nat → PoolState
  | s, 0 => s
  | s, n + 1 =>
      let c := createPage s
      prewarmPagePool { c.2 with pagePool := c.1 :: c.2.pagePool } n

/-- The module-level initial state: empty pool, no busy pages. -/
def initState : PoolState :=
  { pagePool := [], busyPages := ∅, closedPages := ∅,
    viewport := fun _ => defaultViewport, nextId := 0, pending := 0 }

/-- State after startup: `getBrowser` optionally prewarms `PAGE_POOL_SIZE`
pages (CONFIG.PREWARM_PAGES) before any request runs. -/
def startState (prewarm : Bool) : PoolState :=
  if prewarm then prewarmPagePool initState PAGE_POOL_SIZE else initState

/-! ## Template cache (`getTemplate`, `renderTemplate`, `clearTemplateCache`) -/

/-- A template data record: the open-ended key/value structure handed to a
compiled template. -/
abbrev TData := List (String × String)

/-- The external template subsystem: the template files on disk
(`fs.existsSync` / `fs.readFileSync` over `../templates/<name>.ejs`) and
EJS. `ejs.compile` is deterministic, so a compiled function is identified
with its source; `compile src data` invokes it, and template execution may
throw. -/
structure TemplateEnv where
  fs : String → Option String
  compile : String → TData → Except String String

/-- The two module-level maps of `src/render.js`: `templateCache`
(name ↦ raw source) and `compiledTemplates` (name ↦ source the cached
compiled function was built from). -/
structure CacheState where
  templateCache : List (String × String)
  compiledTemplates : List (String × String)
  deriving DecidableEq

/-- JavaScript `Map.get`. -/
def mapGet (m : List (String × String)) (k : String) : Option String :=
  match m.find? (fun e => e.1 == k) with
  | some e => some e.2
  | none => none

/-- JavaScript `Map.set` (insert or overwrite). -/
def mapSet (m : List (String × String)) (k v : String) :
    List (String × String) :=
  (k, v) :: m.filter (fun e => e.1 != k)

/-- `getTemplate(templateName)`: serve from `templateCache` when caching is
on; otherwise read the file (throwing `Template not found` when absent) and,
when caching is on, store both the raw source and the compiled function. -/
def getTemplate (env : TemplateEnv) (c : CacheState) (templateName : String) :
    Except String (String × CacheState) :=
  match (if CACHE_TEMPLATES then mapGet c.templateCache templateName else none) with
  | some template => .ok (template, c)
  | none =>
    match env.fs templateName with
    | none => .error ("Template not found: " ++ templateName)
    | some template =>
      if CACHE_TEMPLATES then
        .ok (template,
          { templateCache := mapSet c.templateCache templateName template,
            compiledTemplates :=
              mapSet c.compiledTemplates templateName template })
      else .ok (template, c)

/-- `renderTemplate(templateName, data)`: prefer the precompiled function in
`compiledTemplates`; otherwise fall back to `getTemplate` plus
`ejs.render(template, data)` (compile fresh and invoke). The two cache maps
are module-level, so the entries `getTemplate` stores persist even when the
subsequent `ejs.render` throws: the cache state is returned alongside the
outcome on the error paths as well. -/
def renderTemplate (env : TemplateEnv) (c : CacheState)
    (templateName : String) (data : TData) :
    Except String String × CacheState :=
  match mapGet c.compiledTemplates templateName with
  | some src =>
    match env.compile src data with
    | .ok markup => (.ok markup, c)
    | .error e => (.error e, c)
  | none =>
    match getTemplate env c templateName with
    | .error e => (.error e, c)
    | .ok (template, c') =>
      match env.compile template data with
      | .ok markup => (.ok markup, c')
      | .error e => (.error e, c')

/-- `clearTemplateCache()`: `templateCache.clear()`. Note the source does
not clear `compiledTemplates`. -/
def clearTemplateCache (c : CacheState) : CacheState :=
  { c with templateCache := [] }

/-! ## Render pipeline (`render`) -/

/-- The `options` argument of `render`; `width` absent means `undefined`. -/
structure RenderOptions where
  width : Option Nat

/-- `options.width || 800`: the requested width, defaulting to 800 (`0` is
falsy in JavaScript and also yields 800). -/
def effWidth (opts : RenderOptions) : Nat :=
  match opts.width with
  | some w => if w = 0 then 800 else w
  | none => 800

/-- The viewport-adjustment step of `render` (step 3): when the page's
current viewport width differs from the requested width, `setViewport` is
called with that width, height 600 and deviceScaleFactor 2; otherwise the
page is untouched. -/
def adjustViewportStep (s : PoolState) (page w : Nat) : PoolState :=
  if (s.viewport page).width ≠ w then
    { s with viewport := Function.update s.viewport page ⟨w, 600, 2⟩ }
  else s

/-- Outcomes of the engine I/O calls a single `render` performs:
`setViewport`, `setContent`, the `waitForFunction` readiness wait (`true`
iff the condition became true within the timeout), the `evaluate` measuring
`document.body`'s bounding box (`none` when it rejects), and `screenshot`. -/
structure EngineOutcome where
  setViewportOk : Bool
  setContentOk : Bool
  waitReady : Bool
  measured : Option (Nat × Nat)
  screenshotOk : Bool

/-- A captured bitmap, recorded as the arguments of `page.screenshot`:
the clip rectangle and the `omitBackground` flag (`false` = opaque
background). -/
structure Screenshot where
  clipX : Nat
  clipY : Nat
  clipW : Nat
  clipH : Nat
  omitBackground : Bool
  deriving DecidableEq

/-- `page.waitForFunction(window.tailwind !== undefined || document.readyState
=== complete, { timeout: timeoutMs })`: resolves when the condition became
true in time, rejects with a timeout error otherwise. -/
def waitForReadiness (ready : Bool) (timeoutMs : Nat) : Except String Bool :=
  if 0 < timeoutMs ∧ ready then .ok true else .error ("TimeoutError")

/-- The `.catch(() => {})` applied to the readiness wait: a rejection is
swallowed and the result discarded. -/
def catchSwallow (e : Except String Bool) : Option Bool :=
  match e with
  | .ok b => some b
  | .error _ => none

/-- The body of `render`'s `try` block, steps 3–6, on an acquired page:
adjust the viewport, `setContent` with the markup, run the bounded readiness
wait (result swallowed either way), wait the 50 ms grace delay, measure the
content bounding box, and capture a screenshot clipped to it with
`omitBackground: false`. Returns the first failure or the screenshot, plus
the page state as left behind. -/
def renderBody (s : PoolState) (page : Nat) (html : String)
    (opts : RenderOptions) (eng : EngineOutcome) :
    Except String Screenshot × PoolState :=
  let w := effWidth opts
  if (s.viewport page).width ≠ w ∧ eng.setViewportOk = false then
    (.error ("setViewport failed"), s)
  else
    let s' := adjustViewportStep s page w
    if eng.setContentOk = false then
      (.error ("setContent failed: " ++ html), s')
    else
      let _ready := catchSwallow (waitForReadiness eng.waitReady READINESS_TIMEOUT_MS)
      match eng.measured with
      | none => (.error ("evaluate failed"), s')
      | some wh =>
        if eng.screenshotOk = false then (.error ("screenshot failed"), s')
        else
          (.ok { clipX := 0, clipY := 0, clipW := wh.1, clipH := wh.2,
                 omitBackground := false }, s')

/-- The result of one `render` call: a bitmap, an error surfaced to the
caller, or suspension waiting for pool capacity. -/
inductive RenderResult where
  | ok (shot : Screenshot)
  | err (msg : String)
  | blocked
  deriving DecidableEq

/-- `render(templateName, data, options)` (after startup, so `getBrowser`
is a no-op): resolve markup via `renderTemplate`, acquire a page, run the
`try` body, and in the `finally` always run `releasePage` — whose own error,
if any, replaces the body's outcome, as JavaScript `finally` semantics
dictate. -/
def render (env : TemplateEnv) (c : CacheState) (s : PoolState)
    (templateName : String) (data : TData) (opts : RenderOptions)
    (eng : EngineOutcome) (resetOk replOk : Bool) :
    RenderResult × CacheState × PoolState :=
  match renderTemplate env c templateName data with
  | (.error e, c') => (.err e, c', s)
  | (.ok html, c') =>
    match acquirePage s with
    | (none, s') => (.blocked, c', s')
    | (some page, s') =>
      let body := renderBody s' page html opts eng
      let rel := releasePage body.2 page resetOk replOk
      match rel.1, body.1 with
      | .error e, _ => (.err e, c', rel.2)
      | .ok _, .error e => (.err e, c', rel.2)
      | .ok _, .ok shot => (.ok shot, c', rel.2)

/-! ## Sequential pool operation semantics

One pool operation executed atomically (no interleaving with other
requests inside the operation). `release` is only ever invoked on a page
object that exists (`p < nextId`); `adjustViewport` is the pipeline's
step 3 run on an acquired page. -/

/-- A pool operation of the sequential (atomic) semantics. -/
inductive PoolOp where
  | acquire
  | release (p : Nat) (resetOk replOk : Bool)
  | adjustViewport (p : Nat) (opts : RenderOptions)

/-- Apply one atomic pool operation. -/
def applyOp (s : PoolState) : PoolOp → PoolState
  | .acquire => (acquirePage s).2
  | .release p resetOk replOk =>
      if p < s.nextId then (releasePage s p resetOk replOk).2 else s
  | .adjustViewport p opts => adjustViewportStep s p (effWidth opts)

/-- Run a list of atomic pool operations in order. -/
def runOps (s : PoolState) : List PoolOp → PoolState
  | [] => s
  | op :: ops => runOps (applyOp s op) ops

/-! ## Concurrent small-step semantics of `acquirePage`

`acquirePage`'s create branch is `if (busyPages.size < CONFIG.MAX_CONCURRENT)
{ const page = await createPage(); busyPages.add(page); }`: the guard and the
insertion are separated by an `await`, so other requests run in between.
`CStep` splits the branch at that suspension point: `createStart` is a
request passing the guard and starting `createPage` (one more in-flight
creation, counted by `pending`), `createFinish` is a started `createPage`
resolving, after which the new page is added to `busyPages`. Popping an open
page is synchronous (no `await` between `pop`, `isClosed` and `add`), hence
a single step. -/
inductive CStep : PoolState → PoolState → Prop where
  | createStart (s : PoolState)
      (hpool : s.pagePool = [])
      (hcard : s.busyPages.card < MAX_CONCURRENT) :
      CStep s { s with pending := s.pending + 1 }
  | createFinish (s : PoolState) (hpending : 0 < s.pending) :
      CStep s { s with
        pending := s.pending - 1,
        busyPages := insert s.nextId s.busyPages,
        viewport := Function.update s.viewport s.nextId defaultViewport,
        nextId := s.nextId + 1 }
  | popOpen (s : PoolState) (p : Nat) (rest : List Nat)
      (hpool : s.pagePool = p :: rest) (hopen : p ∉ s.closedPages) :
      CStep s { s with pagePool := rest, busyPages := insert p s.busyPages }
  | popClosed (s : PoolState) (p : Nat) (rest : List Nat)
      (hpool : s.pagePool = p :: rest) (hclosed : p ∈ s.closedPages) :
      CStep s { s with pagePool := rest }
  | releaseStep (s : PoolState) (p : Nat) (resetOk replOk : Bool)
      (hp : p < s.nextId) :
      CStep s (releasePage s p resetOk replOk).2

/-- States reachable from the module-level initial state under the
concurrent small-step semantics. -/
def CReach (s : PoolState) : Prop :=
  Relation.ReflTransGen CStep initState s

/-! ## Helper lemmas about the pool operations -/

theorem popLoop_some_not_closed {l : List Nat} {c : Finset Nat} {p : Nat}
    {rest : List Nat} (h : popLoop l c = (some p, rest)) : p ∉ c := by
  induction l with
  | nil => simp [popLoop] at h
  | cons a l ih =>
    by_cases ha : a ∈ c
    · simp only [popLoop, if_pos ha] at h
      exact ih h
    · simp only [popLoop, if_neg ha, Prod.mk.injEq, Option.some.injEq] at h
      exact h.1 ▸ ha

theorem popLoop_some_mem {l : List Nat} {c : Finset Nat} {p : Nat}
    {rest : List Nat} (h : popLoop l c = (some p, rest)) : p ∈ l := by
  induction l with
  | nil => simp [popLoop] at h
  | cons a l ih =>
    by_cases ha : a ∈ c
    · simp only [popLoop, if_pos ha] at h
      exact List.mem_cons_of_mem a (ih h)
    · simp only [popLoop, if_neg ha, Prod.mk.injEq, Option.some.injEq] at h
      exact h.1 ▸ List.mem_cons_self a l

theorem popLoop_some_subset {l : List Nat} {c : Finset Nat} {p : Nat}
    {rest : List Nat} (h : popLoop l c = (some p, rest)) :
    rest.toFinset ⊆ l.toFinset := by
  induction l with
  | nil => simp [popLoop] at h
  | cons a l ih =>
    by_cases ha : a ∈ c
    · simp only [popLoop, if_pos ha] at h
      refine (ih h).trans ?_
      simp only [List.toFinset_cons, Finset.subset_iff, Finset.mem_insert]
      exact fun x hx => Or.inr hx
    · simp only [popLoop, if_neg ha, Prod.mk.injEq] at h
      rw [← h.2]
      simp only [List.toFinset_cons, Finset.subset_iff, Finset.mem_insert]
      exact fun x hx => Or.inr hx

theorem popLoop_none_all_closed {l : List Nat} {c : Finset Nat}
    {rest : List Nat} (h : popLoop l c = (none, rest)) : ∀ q ∈ l, q ∈ c := by
  induction l with
  | nil => simp
  | cons a l ih =>
    by_cases ha : a ∈ c
    · simp only [popLoop, if_pos ha] at h
      intro q hq
      rcases List.mem_cons.mp hq with rfl | hq
      · exact ha
      · exact ih h q hq
    · simp [popLoop, if_neg ha] at h

theorem popLoop_none_snd {l : List Nat} {c : Finset Nat} {rest : List Nat}
    (h : popLoop l c = (none, rest)) : rest = [] := by
  induction l with
  | nil => exact (congrArg Prod.snd h).symm
  | cons a l ih =>
    by_cases ha : a ∈ c
    · simp only [popLoop, if_pos ha] at h
      exact ih h
    · simp [popLoop, if_neg ha] at h

theorem popLoop_mem_cases {l : List Nat} {c : Finset Nat} (q : Nat)
    (hq : q ∈ l) :
    q ∈ (popLoop l c).2 ∨ q ∈ c ∨ (popLoop l c).1 = some q := by
  induction l with
  | nil => simp at hq
  | cons a l ih =>
    by_cases ha : a ∈ c
    · simp only [popLoop, if_pos ha]
      rcases List.mem_cons.mp hq with rfl | hq
      · exact Or.inr (Or.inl ha)
      · exact ih hq
    · simp only [popLoop, if_neg ha]
      rcases List.mem_cons.mp hq with rfl | hq
      · exact Or.inr (Or.inr rfl)
      · exact Or.inl hq

/-- All branches of `releasePage` leave `busyPages` equal to the original
set with `p` erased: `busyPages.delete(page)` runs first and nothing later
touches the busy set. -/
theorem releasePage_busyPages (s : PoolState) (p : Nat) (a b : Bool) :
    ((releasePage s p a b).2).busyPages = s.busyPages.erase p := by
  unfold releasePage createPage
  dsimp only
  split
  · rfl
  · split
    · rfl
    · split
      · split <;> rfl
      · rfl

theorem releasePage_closed_subset (s : PoolState) (p : Nat) (a b : Bool) :
    s.closedPages ⊆ ((releasePage s p a b).2).closedPages := by
  unfold releasePage createPage
  dsimp only
  split
  · exact Finset.Subset.refl _
  · split
    · exact Finset.Subset.refl _
    · split
      · split <;> exact Finset.subset_insert _ _
      · exact Finset.subset_insert _ _

theorem releasePage_nextId_le (s : PoolState) (p : Nat) (a b : Bool) :
    s.nextId ≤ ((releasePage s p a b).2).nextId := by
  unfold releasePage createPage
  dsimp only
  split
  · exact le_refl _
  · split
    · exact le_refl _
    · split
      · split
        · exact Nat.le_succ _
        · exact le_refl _
      · exact le_refl _

theorem acquirePage_closed_eq (s : PoolState) :
    ((acquirePage s).2).closedPages = s.closedPages := by
  unfold acquirePage createPage
  dsimp only
  split
  · rfl
  · split <;> rfl

theorem acquirePage_nextId_le (s : PoolState) :
    s.nextId ≤ ((acquirePage s).2).nextId := by
  unfold acquirePage createPage
  dsimp only
  split
  · exact le_refl _
  · split
    · exact Nat.le_succ _
    · exact le_refl _

/-- A page returned by `acquirePage` is either an open page popped from the
pool or the freshly created page `s.nextId`. -/
theorem acquirePage_some_cases {s : PoolState} {p : Nat}
    (h : (acquirePage s).1 = some p) : p ∉ s.closedPages ∨ p = s.nextId := by
  unfold acquirePage at h
  rcases hpop : popLoop s.pagePool s.closedPages with ⟨o, rest⟩
  rw [hpop] at h
  match o, h with
  | some q, h =>
    simp only [Option.some.injEq] at h
    exact Or.inl (h ▸ popLoop_some_not_closed hpop)
  | none, h =>
    by_cases hc : s.busyPages.card < MAX_CONCURRENT
    · simp only [if_pos hc, createPage] at h
      exact Or.inr (Option.some.inj h).symm
    · simp [if_neg hc] at h

theorem applyOp_closed_subset (s : PoolState) (op : PoolOp) :
    s.closedPages ⊆ (applyOp s op).closedPages := by
  cases op with
  | acquire =>
    simp only [applyOp]
    rw [acquirePage_closed_eq]
  | release p a b =>
    simp only [applyOp]
    split
    · exact releasePage_closed_subset s p a b
    · exact Finset.Subset.refl _
  | adjustViewport p opts =>
    simp only [applyOp, adjustViewportStep]
    split <;> exact Finset.Subset.refl _

theorem applyOp_nextId_le (s : PoolState) (op : PoolOp) :
    s.nextId ≤ (applyOp s op).nextId := by
  cases op with
  | acquire =>
    simp only [applyOp]
    exact acquirePage_nextId_le s
  | release p a b =>
    simp only [applyOp]
    split
    · exact releasePage_nextId_le s p a b
    · exact le_refl _
  | adjustViewport p opts =>
    simp only [applyOp, adjustViewportStep]
    split <;> exact le_refl _

theorem runOps_closed_subset (s : PoolState) (ops : List PoolOp) :
    s.closedPages ⊆ (runOps s ops).closedPages := by
  induction ops generalizing s with
  | nil => exact Finset.Subset.refl _
  | cons op ops ih =>
    exact (applyOp_closed_subset s op).trans (ih (applyOp s op))

theorem runOps_nextId_le (s : PoolState) (ops : List PoolOp) :
    s.nextId ≤ (runOps s ops).nextId := by
  induction ops generalizing s with
  | nil => exact le_refl _
  | cons op ops ih =>
    exact (applyOp_nextId_le s op).trans (ih (applyOp s op))

/-! ## The pool-capacity invariant of the sequential semantics -/

/-- The open sessions currently owned by the pool machinery: the busy pages
together with the open pages sitting in the idle stack. -/
def openSessions (s : PoolState) : Finset Nat :=
  s.busyPages ∪ (s.pagePool.toFinset \ s.closedPages)

/-- Inductive invariant of the sequential pool semantics: every page object
ever created is accounted for (busy, pooled, or closed), and the number of
distinct open sessions owned by the pool machinery is at most
`MAX_CONCURRENT`. -/
def PoolInv (s : PoolState) : Prop :=
  (∀ p, p < s.nextId →
      p ∈ s.busyPages ∨ p ∈ s.pagePool ∨ p ∈ s.closedPages) ∧
  (openSessions s).card ≤ MAX_CONCURRENT

theorem poolInv_initState : PoolInv initState := by
  constructor
  · intro p hp
    simp [initState] at hp
  · simp [openSessions, initState, MAX_CONCURRENT]

theorem poolInv_acquire {s : PoolState} (h : PoolInv s) :
    PoolInv (acquirePage s).2 := by
  obtain ⟨hJ, hcard⟩ := h
  unfold acquirePage
  rcases hpop : popLoop s.pagePool s.closedPages with ⟨o, rest⟩
  match o with
  | some p =>
    dsimp only
    have hmem : p ∈ s.pagePool := popLoop_some_mem hpop
    have hopen : p ∉ s.closedPages := popLoop_some_not_closed hpop
    have hsub : rest.toFinset ⊆ s.pagePool.toFinset := popLoop_some_subset hpop
    constructor
    · intro q hq
      rcases hJ q hq with hb | hp | hc
      · exact Or.inl (Finset.mem_insert_of_mem hb)
      · rcases popLoop_mem_cases (c := s.closedPages) q hp with h1 | h2 | h3
        · rw [hpop] at h1
          exact Or.inr (Or.inl h1)
        · exact Or.inr (Or.inr h2)
        · rw [hpop] at h3
          simp only [Option.some.injEq] at h3
          subst h3
          exact Or.inl (Finset.mem_insert_self _ _)
      · exact Or.inr (Or.inr hc)
    · refine le_trans (Finset.card_le_card ?_) hcard
      intro x hx
      rcases Finset.mem_union.mp hx with hx | hx
      · rcases Finset.mem_insert.mp hx with rfl | hx
        · exact Finset.mem_union_right _
            (Finset.mem_sdiff.mpr ⟨List.mem_toFinset.mpr hmem, hopen⟩)
        · exact Finset.mem_union_left _ hx
      · rcases Finset.mem_sdiff.mp hx with ⟨hx1, hx2⟩
        exact Finset.mem_union_right _
          (Finset.mem_sdiff.mpr ⟨hsub hx1, hx2⟩)
  | none =>
    dsimp only
    have hall : ∀ q ∈ s.pagePool, q ∈ s.closedPages :=
      popLoop_none_all_closed hpop
    have hrest : rest = [] := popLoop_none_snd hpop
    subst hrest
    by_cases hc : s.busyPages.card < MAX_CONCURRENT
    · rw [if_pos hc]
      dsimp only [createPage]
      constructor
      · intro q hq
        rcases Nat.lt_succ_iff_lt_or_eq.mp hq with hq | rfl
        · rcases hJ q hq with hb | hp | hcl
          · exact Or.inl (Finset.mem_insert_of_mem hb)
          · exact Or.inr (Or.inr (hall q hp))
          · exact Or.inr (Or.inr hcl)
        · exact Or.inl (Finset.mem_insert_self _ _)
      · have : openSessions
            { s with
                pagePool := ([] : List Nat),
                busyPages := insert s.nextId s.busyPages,
                nextId := s.nextId + 1,
                viewport := Function.update s.viewport s.nextId defaultViewport }
            = insert s.nextId s.busyPages := by
          simp [openSessions]
        rw [openSessions] at this ⊢
        rw [this]
        exact le_trans (Finset.card_insert_le _ _) hc
    · rw [if_neg hc]
      constructor
      · intro q hq
        rcases hJ q hq with hb | hp | hcl
        · exact Or.inl hb
        · exact Or.inr (Or.inr (hall q hp))
        · exact Or.inr (Or.inr hcl)
      · refine le_trans (Finset.card_le_card ?_) hcard
        intro x hx
        rcases Finset.mem_union.mp hx with hx | hx
        · exact Finset.mem_union_left _ hx
        · simp at hx

theorem poolInv_release {s : PoolState} (p : Nat) (a b : Bool)
    (hp : p < s.nextId) (h : PoolInv s) : PoolInv (releasePage s p a b).2 := by
  obtain ⟨hJ, hcard⟩ := h
  unfold releasePage createPage
  dsimp only
  split
  case isTrue hc =>
    constructor
    · intro q hq
      rcases hJ q hq with hb | hpool | hcl
      · by_cases hqp : q = p
        · exact Or.inr (Or.inr (hqp ▸ hc))
        · exact Or.inl (Finset.mem_erase.mpr ⟨hqp, hb⟩)
      · exact Or.inr (Or.inl hpool)
      · exact Or.inr (Or.inr hcl)
    · refine le_trans (Finset.card_le_card ?_) hcard
      intro x hx
      rcases Finset.mem_union.mp hx with hx | hx
      · exact Finset.mem_union_left _ (Finset.mem_of_mem_erase hx)
      · exact Finset.mem_union_right _ hx
  case isFalse hc =>
    have hpU : p ∈ openSessions s := by
      rcases hJ p hp with hb | hpool | hcl
      · exact Finset.mem_union_left _ hb
      · exact Finset.mem_union_right _
          (Finset.mem_sdiff.mpr ⟨List.mem_toFinset.mpr hpool, hc⟩)
      · exact absurd hcl hc
    split
    case isTrue ha =>
      constructor
      · intro q hq
        rcases hJ q hq with hb | hpool | hcl
        · by_cases hqp : q = p
          · exact Or.inr (Or.inl (hqp ▸ List.mem_cons_self p s.pagePool))
          · exact Or.inl (Finset.mem_erase.mpr ⟨hqp, hb⟩)
        · exact Or.inr (Or.inl (List.mem_cons_of_mem p hpool))
        · exact Or.inr (Or.inr hcl)
      · refine le_trans (Finset.card_le_card ?_) hcard
        intro x hx
        rcases Finset.mem_union.mp hx with hx | hx
        · exact Finset.mem_union_left _ (Finset.mem_of_mem_erase hx)
        · rcases Finset.mem_sdiff.mp hx with ⟨hx1, hx2⟩
          rw [List.toFinset_cons, Finset.mem_insert] at hx1
          rcases hx1 with rfl | hx1
          · exact hpU
          · exact Finset.mem_union_right _ (Finset.mem_sdiff.mpr ⟨hx1, hx2⟩)
    case isFalse ha =>
      have hUpos : 1 ≤ (openSessions s).card :=
        Finset.card_pos.mpr ⟨p, hpU⟩
      have hs2 : PoolInv
          { s with busyPages := s.busyPages.erase p,
                   closedPages := insert p s.closedPages } := by
        constructor
        · intro q hq
          rcases hJ q hq with hb | hpool | hcl
          · by_cases hqp : q = p
            · exact Or.inr (Or.inr (by rw [hqp]; exact Finset.mem_insert_self p _))
            · exact Or.inl (Finset.mem_erase.mpr ⟨hqp, hb⟩)
          · exact Or.inr (Or.inl hpool)
          · exact Or.inr (Or.inr (Finset.mem_insert_of_mem hcl))
        · refine le_trans (Finset.card_le_card ?_) hcard
          intro x hx
          rcases Finset.mem_union.mp hx with hx | hx
          · exact Finset.mem_union_left _ (Finset.mem_of_mem_erase hx)
          · rcases Finset.mem_sdiff.mp hx with ⟨hx1, hx2⟩
            rw [Finset.mem_insert] at hx2
            push_neg at hx2
            exact Finset.mem_union_right _
              (Finset.mem_sdiff.mpr ⟨hx1, hx2.2⟩)
      split
      case isTrue hlen =>
        split
        case isTrue hb =>
          constructor
          · intro q hq
            rcases Nat.lt_succ_iff_lt_or_eq.mp hq with hq | rfl
            · rcases hJ q hq with hbq | hpool | hcl
              · by_cases hqp : q = p
                · exact Or.inr (Or.inr (by rw [hqp]; exact Finset.mem_insert_self p _))
                · exact Or.inl (Finset.mem_erase.mpr ⟨hqp, hbq⟩)
              · exact Or.inr (Or.inl (List.mem_cons_of_mem _ hpool))
              · exact Or.inr (Or.inr (Finset.mem_insert_of_mem hcl))
            · exact Or.inr (Or.inl (List.mem_cons_self _ _))
          · have hsub : openSessions
                { s with busyPages := s.busyPages.erase p,
                         closedPages := insert p s.closedPages,
                         pagePool := s.nextId :: s.pagePool,
                         viewport := Function.update s.viewport s.nextId defaultViewport,
                         nextId := s.nextId + 1 } ⊆
                insert s.nextId ((openSessions s).erase p) := by
              intro x hx
              rcases Finset.mem_union.mp hx with hx | hx
              · refine Finset.mem_insert_of_mem
                  (Finset.mem_erase.mpr ⟨(Finset.mem_erase.mp hx).1, ?_⟩)
                exact Finset.mem_union_left _ (Finset.mem_of_mem_erase hx)
              · rcases Finset.mem_sdiff.mp hx with ⟨hx1, hx2⟩
                rw [Finset.mem_insert] at hx2
                push_neg at hx2
                rw [List.toFinset_cons, Finset.mem_insert] at hx1
                rcases hx1 with rfl | hx1
                · exact Finset.mem_insert_self _ _
                · refine Finset.mem_insert_of_mem
                    (Finset.mem_erase.mpr ⟨hx2.1, ?_⟩)
                  exact Finset.mem_union_right _
                    (Finset.mem_sdiff.mpr ⟨hx1, hx2.2⟩)
            refine le_trans (Finset.card_le_card hsub) ?_
            refine le_trans (Finset.card_insert_le _ _) ?_
            rw [Finset.card_erase_of_mem hpU]
            rw [Nat.sub_add_cancel hUpos]
            exact hcard
        case isFalse hb => exact hs2
      case isFalse hlen => exact hs2

theorem poolInv_adjustViewport {s : PoolState} (p w : Nat) (h : PoolInv s) :
    PoolInv (adjustViewportStep s p w) := by
  unfold adjustViewportStep
  split
  · exact h
  · exact h

theorem poolInv_applyOp {s : PoolState} (op : PoolOp) (h : PoolInv s) :
    PoolInv (applyOp s op) := by
  cases op with
  | acquire =>
    simp only [applyOp]
    exact poolInv_acquire h
  | release p a b =>
    simp only [applyOp]
    split
    case isTrue hp => exact poolInv_release p a b hp h
    case isFalse hp => exact h
  | adjustViewport p opts =>
    simp only [applyOp]
    exact poolInv_adjustViewport p (effWidth opts) h

theorem poolInv_runOps {s : PoolState} (ops : List PoolOp) (h : PoolInv s) :
    PoolInv (runOps s ops) := by
  induction ops generalizing s with
  | nil => exact h
  | cons op ops ih => exact ih (poolInv_applyOp op h)

/-- After `prewarmPagePool`, the pool has gained `n` fresh distinct pages,
and nothing else changed. -/
theorem prewarm_spec (n : Nat) (s : PoolState) :
    (prewarmPagePool s n).busyPages = s.busyPages ∧
    (prewarmPagePool s n).closedPages = s.closedPages ∧
    (prewarmPagePool s n).nextId = s.nextId + n ∧
    ∀ q, q ∈ (prewarmPagePool s n).pagePool ↔
      (q ∈ s.pagePool ∨ (s.nextId ≤ q ∧ q < s.nextId + n)) := by
  induction n generalizing s with
  | zero =>
    refine ⟨rfl, rfl, rfl, fun q => ?_⟩
    rw [prewarmPagePool]
    constructor
    · exact fun h => Or.inl h
    · rintro (h | ⟨h1, h2⟩)
      · exact h
      · omega
  | succ n ih =>
    have h := ih { s with
      pagePool := s.nextId :: s.pagePool,
      nextId := s.nextId + 1,
      viewport := Function.update s.viewport s.nextId defaultViewport }
    obtain ⟨h1, h2, h3, h4⟩ := h
    refine ⟨h1, h2, ?_, fun q => ?_⟩
    · rw [prewarmPagePool]
      dsimp only [createPage]
      rw [h3]
      dsimp only
      omega
    · rw [prewarmPagePool]
      dsimp only [createPage]
      rw [h4 q]
      dsimp only
      simp only [List.mem_cons]
      by_cases hq : q ∈ s.pagePool
      · simp [hq]
      · simp [hq]
        omega

theorem poolInv_startState (b : Bool) : PoolInv (startState b) := by
  cases b with
  | false => exact poolInv_initState
  | true =>
    rw [startState, if_pos rfl]
    obtain ⟨h1, h2, h3, h4⟩ := prewarm_spec PAGE_POOL_SIZE initState
    constructor
    · intro p hp
      rw [h3] at hp
      refine Or.inr (Or.inl ?_)
      rw [h4 p]
      exact Or.inr ⟨Nat.zero_le p, hp⟩
    · have hsub : openSessions (prewarmPagePool initState PAGE_POOL_SIZE) ⊆
          Finset.range PAGE_POOL_SIZE := by
        intro x hx
        rcases Finset.mem_union.mp hx with hx | hx
        · rw [h1] at hx
          simp [initState] at hx
        · rcases Finset.mem_sdiff.mp hx with ⟨hx1, _⟩
          rw [List.mem_toFinset, h4 x] at hx1
          rcases hx1 with hx1 | ⟨_, hx2⟩
          · simp [initState] at hx1
          · simpa using hx2
      refine le_trans (Finset.card_le_card hsub) ?_
      rw [Finset.card_range]
      decide

/-! ## The concurrent trace exceeding the busy bound -/

/-- Intermediate state of the violating trace: pages `0 .. k-1` all busy,
empty pool, `pnd` creations in flight. -/
def creationState (k pnd : Nat) : PoolState :=
  { pagePool := [], busyPages := Finset.range k, closedPages := ∅,
    viewport := fun _ => defaultViewport, nextId := k, pending := pnd }

theorem cstep_start (k : Nat) (hk : k < MAX_CONCURRENT) (pnd : Nat) :
    CStep (creationState k pnd) (creationState k (pnd + 1)) := by
  have hcard : (creationState k pnd).busyPages.card < MAX_CONCURRENT := by
    simpa [creationState] using hk
  exact CStep.createStart (creationState k pnd) rfl hcard

theorem cstep_finish (k pnd : Nat) :
    CStep (creationState k (pnd + 1)) (creationState (k + 1) pnd) := by
  have h := CStep.createFinish (creationState k (pnd + 1))
    (by simp [creationState])
  have he : ({ creationState k (pnd + 1) with
      pending := (creationState k (pnd + 1)).pending - 1,
      busyPages := insert (creationState k (pnd + 1)).nextId
        (creationState k (pnd + 1)).busyPages,
      viewport := Function.update (creationState k (pnd + 1)).viewport
        (creationState k (pnd + 1)).nextId defaultViewport,
      nextId := (creationState k (pnd + 1)).nextId + 1 } : PoolState) =
      creationState (k + 1) pnd := by
    dsimp only [creationState]
    congr 1
    · exact (Finset.range_succ).symm
    · funext x
      simp [Function.update_apply]
  exact he ▸ h

theorem creationState_reach (k : Nat) (hk : k ≤ MAX_CONCURRENT - 1) :
    CReach (creationState k 0) := by
  induction k with
  | zero =>
    have h0 : creationState 0 0 = initState := rfl
    rw [CReach, h0]
  | succ k ih =>
    have hk' : k ≤ MAX_CONCURRENT - 1 := le_trans (Nat.le_succ k) hk
    have hklt : k < MAX_CONCURRENT := by
      unfold MAX_CONCURRENT at hk ⊢
      omega
    exact ((ih hk').tail (cstep_start k hklt 0)).tail (cstep_finish k 0)

/-- The end state of the violating interleaved trace: `MAX_CONCURRENT + 1`
pages simultaneously busy. -/
def overLimitState : PoolState := creationState (MAX_CONCURRENT + 1) 0

theorem overLimitState_reach : CReach overLimitState := by
  have h15 : CReach (creationState 15 0) := creationState_reach 15 (by decide)
  have s1 : CStep (creationState 15 0) (creationState 15 1) :=
    cstep_start 15 (by decide) 0
  have s2 : CStep (creationState 15 1) (creationState 15 2) :=
    cstep_start 15 (by decide) 1
  have s3 : CStep (creationState 15 2) (creationState 16 1) :=
    cstep_finish 15 1
  have s4 : CStep (creationState 16 1) (creationState 17 0) :=
    cstep_finish 16 0
  exact (((h15.tail s1).tail s2).tail s3).tail s4

/-! ## Further helper lemmas for the pipeline claims -/

/-- When the reset fails on an open page, `releasePage` closes it, in every
branch of the replacement logic. -/
theorem releasePage_resetFail_closes (s : PoolState) (p : Nat) (b : Bool)
    (hc : p ∉ s.closedPages) :
    p ∈ ((releasePage s p false b).2).closedPages := by
  unfold releasePage createPage
  dsimp only
  rw [if_neg hc]
  simp only [Bool.false_eq_true, if_false]
  split
  · split
    · exact Finset.mem_insert_self p _
    · exact Finset.mem_insert_self p _
  · exact Finset.mem_insert_self p _

/-- Anatomy of a successful `renderBody`: the screenshot is clipped from the
origin to exactly the measured content extent, with `omitBackground: false`. -/
theorem renderBody_ok {s : PoolState} {page : Nat} {html : String}
    {opts : RenderOptions} {eng : EngineOutcome} {shot : Screenshot}
    (h : (renderBody s page html opts eng).1 = .ok shot) :
    eng.measured = some (shot.clipW, shot.clipH) ∧ shot.clipX = 0 ∧
    shot.clipY = 0 ∧ shot.omitBackground = false := by
  unfold renderBody at h
  dsimp only at h
  split at h
  · simp at h
  · split at h
    · simp at h
    · split at h
      · simp at h
      · rename_i wh hm
        split at h
        · simp at h
        · simp only [Except.ok.injEq] at h
          subst h
          exact ⟨by rw [hm], rfl, rfl, rfl⟩

/-- The viewport invariant: every page's viewport has height 600 and
deviceScaleFactor 2. -/
def ViewportInv (s : PoolState) : Prop :=
  ∀ p, (s.viewport p).height = 600 ∧ (s.viewport p).deviceScaleFactor = 2

theorem viewportInv_createPage {s : PoolState} (h : ViewportInv s) :
    ViewportInv (createPage s).2 := by
  intro p
  dsimp only [createPage]
  rw [Function.update_apply]
  split
  · exact ⟨rfl, rfl⟩
  · exact h p

theorem viewportInv_acquire {s : PoolState} (h : ViewportInv s) :
    ViewportInv (acquirePage s).2 := by
  unfold acquirePage
  rcases hpop : popLoop s.pagePool s.closedPages with ⟨o, rest⟩
  match o with
  | some p => exact h
  | none =>
    dsimp only
    split
    · exact viewportInv_createPage h
    · exact h

theorem viewportInv_release {s : PoolState} (p : Nat) (a b : Bool)
    (h : ViewportInv s) : ViewportInv (releasePage s p a b).2 := by
  unfold releasePage createPage
  dsimp only
  split
  · exact h
  · split
    · exact h
    · split
      · split
        · intro q
          dsimp only
          rw [Function.update_apply]
          split
          · exact ⟨rfl, rfl⟩
          · exact h q
        · exact h
      · exact h

theorem viewportInv_adjust {s : PoolState} (p w : Nat) (h : ViewportInv s) :
    ViewportInv (adjustViewportStep s p w) := by
  unfold adjustViewportStep
  split
  · intro q
    dsimp only
    rw [Function.update_apply]
    split
    · exact ⟨rfl, rfl⟩
    · exact h q
  · exact h

theorem viewportInv_applyOp {s : PoolState} (op : PoolOp) (h : ViewportInv s) :
    ViewportInv (applyOp s op) := by
  cases op with
  | acquire =>
    simp only [applyOp]
    exact viewportInv_acquire h
  | release p a b =>
    simp only [applyOp]
    split
    · exact viewportInv_release p a b h
    · exact h
  | adjustViewport p opts =>
    simp only [applyOp]
    exact viewportInv_adjust p (effWidth opts) h

theorem viewportInv_runOps {s : PoolState} (ops : List PoolOp)
    (h : ViewportInv s) : ViewportInv (runOps s ops) := by
  induction ops generalizing s with
  | nil => exact h
  | cons op ops ih => exact ih (viewportInv_applyOp op h)

theorem viewportInv_initState : ViewportInv initState :=
  fun _ => ⟨rfl, rfl⟩

theorem viewportInv_prewarm (n : Nat) {s : PoolState} (h : ViewportInv s) :
    ViewportInv (prewarmPagePool s n) := by
  induction n generalizing s with
  | zero => exact h
  | succ n ih =>
    rw [prewarmPagePool]
    exact ih (viewportInv_createPage h)

theorem viewportInv_startState (b : Bool) : ViewportInv (startState b) := by
  cases b with
  | false => exact viewportInv_initState
  | true =>
    rw [startState, if_pos rfl]
    exact viewportInv_prewarm PAGE_POOL_SIZE viewportInv_initState

/-! ## Concrete fixtures for witnesses and counterexamples -/

/-- A one-template environment: `t` has source `SRC` on disk; compilation is
the identity on the source and invocation ignores the data. -/
def wEnv : TemplateEnv :=
  { fs := fun n => if n == "t" then some "SRC" else none,
    compile := fun src _ => .ok src }

/-- Empty caches. -/
def wCache : CacheState := { templateCache := [], compiledTemplates := [] }

/-- All engine calls succeed; the content measures 123 × 456. -/
def wEng : EngineOutcome :=
  { setViewportOk := true, setContentOk := true, waitReady := true,
    measured := some (123, 456), screenshotOk := true }

/-- A pool owning exactly one page, id 0, currently busy. -/
def onePageBusyState : PoolState :=
  { pagePool := [], busyPages := ({0} : Finset Nat), closedPages := ∅,
    viewport := fun _ => defaultViewport, nextId := 1, pending := 0 }

/-! ## Claims -/

/-- C1 (counterexample). The claim asserts `|busyPages| ≤ MAX_CONCURRENT`
after every step of every operation sequence, explicitly including sequences
where several acquires are in flight concurrently. It is false on the code:
the guard `busyPages.size < CONFIG.MAX_CONCURRENT` and the later
`busyPages.add(page)` are separated by `await createPage()`, so with 15
pages busy two interleaved acquires both pass the guard and, after both
creations resolve, 17 pages are busy. `overLimitState` (17 busy pages) is
reachable from the initial state under the concurrent small-step
semantics. -/
theorem c1_counterexample :
    CReach overLimitState ∧ MAX_CONCURRENT < overLimitState.busyPages.card :=
  ⟨overLimitState_reach, by decide⟩

/-- C1 (amended): for every sequence of pool operations executed atomically
(startup warm-up, then acquire / release / viewport adjustment with no
interleaving inside an operation), the busy collection never exceeds
`MAX_CONCURRENT` after any step. -/
theorem c1_amended_busy_bound (b : Bool) (ops : List PoolOp) :
    (runOps (startState b) ops).busyPages.card ≤ MAX_CONCURRENT := by
  have h := poolInv_runOps ops (poolInv_startState b)
  refine le_trans (Finset.card_le_card ?_) h.2
  exact Finset.subset_union_left

/-- C2: in every `render` call in which a session is successfully acquired,
the `finally` block releases it on every path — under every combination of
viewport-set / content-load / measure / capture outcomes and release
outcomes — so the acquired page is never left in the busy collection when
`render` returns or its error surfaces. -/
theorem c2_no_session_leak (env : TemplateEnv) (c : CacheState)
    (s : PoolState) (templateName : String) (data : TData)
    (opts : RenderOptions) (eng : EngineOutcome) (resetOk replOk : Bool)
    (html : String) (c' : CacheState) (page : Nat)
    (h1 : renderTemplate env c templateName data = (.ok html, c'))
    (h2 : (acquirePage s).1 = some page) :
    page ∉
      (render env c s templateName data opts eng resetOk replOk).2.2.busyPages := by
  unfold render
  rw [h1]
  rcases ha : acquirePage s with ⟨o, s'⟩
  rw [ha] at h2
  dsimp only at h2
  subst h2
  dsimp only
  split
  all_goals dsimp only
  all_goals rw [releasePage_busyPages]
  all_goals exact Finset.not_mem_erase page _

theorem c2_witness :
    renderTemplate wEnv wCache "t" [] =
      (.ok "SRC", { templateCache := [("t", "SRC")],
                    compiledTemplates := [("t", "SRC")] }) ∧
    (acquirePage initState).1 = some 0 ∧
    0 ∉ (render wEnv wCache initState "t" [] ⟨none⟩ wEng true true).2.2.busyPages :=
  ⟨rfl, rfl,
   c2_no_session_leak wEnv wCache initState "t" [] ⟨none⟩ wEng true true
     "SRC" { templateCache := [("t", "SRC")], compiledTemplates := [("t", "SRC")] }
     0 rfl rfl⟩

/-- Fixture for C3: the on-disk source of `t` is now `NEW`, but both caches
still hold the entry compiled from the old source `OLD`. -/
def c3Env : TemplateEnv :=
  { fs := fun n => if n == "t" then some "NEW" else none,
    compile := fun src _ => .ok src }

/-- Fixture for C3: caches as left by an earlier compilation of `OLD`. -/
def c3Cache : CacheState :=
  { templateCache := [("t", "OLD")], compiledTemplates := [("t", "OLD")] }

/-- C3 (code bug): after `clearTemplateCache()`, rendering `t` still returns
the output of the stale compiled function (built from `OLD`) instead of
compiling the current source `NEW` fresh: `clearTemplateCache` empties
`templateCache` but not `compiledTemplates`, and `renderTemplate` consults
`compiledTemplates` first, so a clear never causes recompilation for a
template that was ever compiled. -/
theorem c3_clear_leaves_stale_compiled :
    renderTemplate c3Env (clearTemplateCache c3Cache) "t" [] =
      (.ok "OLD", clearTemplateCache c3Cache) ∧
    c3Env.fs "t" = some "NEW" ∧
    c3Env.compile "NEW" [] = .ok "NEW" ∧
    "OLD" ≠ "NEW" :=
  ⟨rfl, rfl, rfl, by decide⟩

/-- C4 (counterexample). The claim says the replacement session is created
asynchronously and `release(session)` never raises even when creating the
replacement fails. False: in `releasePage` the replacement is created by
`await createPage()` with no surrounding try/catch, so when reset fails,
the pool is below target and `browser.newPage` rejects, the rejection
propagates out of `releasePage` to the releasing caller. -/
theorem c4_counterexample :
    (releasePage onePageBusyState 0 false false).1 =
      .error ("newPage failed") := rfl

/-- C4 (amended): when reset fails on an open page and the idle collection
is below its target size, the replacement session is created synchronously
inside `release` — the releasing caller awaits it, the replacement is
already in the idle stack when `release` returns, and a failure of
replacement creation propagates out of `release` as an error. -/
theorem c4_amended_replacement_synchronous (s : PoolState) (p : Nat)
    (replOk : Bool) (hopen : p ∉ s.closedPages)
    (hbelow : s.pagePool.length < PAGE_POOL_SIZE) :
    (replOk = true →
      (releasePage s p false replOk).1 = .ok () ∧
      (releasePage s p false replOk).2.pagePool = s.nextId :: s.pagePool) ∧
    (replOk = false →
      (releasePage s p false replOk).1 = .error ("newPage failed") ∧
      (releasePage s p false replOk).2.pagePool = s.pagePool) := by
  unfold releasePage createPage
  dsimp only
  rw [if_neg hopen]
  simp only [Bool.false_eq_true, if_false]
  rw [if_pos hbelow]
  cases replOk
  · refine ⟨fun h => absurd h (by simp), fun _ => ⟨rfl, rfl⟩⟩
  · refine ⟨fun _ => ⟨rfl, rfl⟩, fun h => absurd h (by simp)⟩

theorem c4_witness :
    0 ∉ onePageBusyState.closedPages ∧
    onePageBusyState.pagePool.length < PAGE_POOL_SIZE ∧
    (releasePage onePageBusyState 0 false true).1 = .ok () ∧
    (releasePage onePageBusyState 0 false true).2.pagePool = [1] :=
  ⟨by decide, by decide,
   ((c4_amended_replacement_synchronous onePageBusyState 0 true (by decide)
      (by decide)).1 rfl).1,
   ((c4_amended_replacement_synchronous onePageBusyState 0 true (by decide)
      (by decide)).1 rfl).2⟩

/-- C5: if reset-on-release fails for an open session S, that release closes
S; S stays closed across every later sequence of pool operations, and no
later `acquirePage` ever returns S — closed pages popped off the idle stack
are discarded, and freshly created pages are distinct from S. -/
theorem c5_corrupted_never_reacquired (s : PoolState) (S : Nat) (replOk : Bool)
    (hlt : S < s.nextId) (hopen : S ∉ s.closedPages) :
    S ∈ (applyOp s (.release S false replOk)).closedPages ∧
    ∀ ops : List PoolOp,
      S ∈ (runOps (applyOp s (.release S false replOk)) ops).closedPages ∧
      (acquirePage (runOps (applyOp s (.release S false replOk)) ops)).1 ≠
        some S := by
  have hclosed : S ∈ (applyOp s (.release S false replOk)).closedPages := by
    simp only [applyOp]
    rw [if_pos hlt]
    exact releasePage_resetFail_closes s S replOk hopen
  refine ⟨hclosed, fun ops => ?_⟩
  have hc2 : S ∈ (runOps (applyOp s (.release S false replOk)) ops).closedPages :=
    runOps_closed_subset _ ops hclosed
  refine ⟨hc2, fun hacq => ?_⟩
  rcases acquirePage_some_cases hacq with hno | heq
  · exact hno hc2
  · have h1 : s.nextId ≤ (applyOp s (.release S false replOk)).nextId :=
      applyOp_nextId_le s _
    have h2 : (applyOp s (.release S false replOk)).nextId ≤
        (runOps (applyOp s (.release S false replOk)) ops).nextId :=
      runOps_nextId_le _ ops
    omega

theorem c5_witness :
    0 < onePageBusyState.nextId ∧ 0 ∉ onePageBusyState.closedPages ∧
    0 ∈ (applyOp onePageBusyState (.release 0 false true)).closedPages ∧
    (acquirePage (runOps (applyOp onePageBusyState (.release 0 false true))
      [PoolOp.acquire])).1 ≠ some 0 :=
  ⟨by decide, by decide,
   (c5_corrupted_never_reacquired onePageBusyState 0 true (by decide)
      (by decide)).1,
   ((c5_corrupted_never_reacquired onePageBusyState 0 true (by decide)
      (by decide)).2 [PoolOp.acquire]).2⟩

/-- Fixture for C6: no template exists on disk. -/
def c6Env : TemplateEnv :=
  { fs := fun _ => none, compile := fun src _ => .ok src }

/-- Fixture for C6: a stale compiled entry for `t` survives in
`compiledTemplates` although its source file is gone. -/
def c6Cache : CacheState :=
  { templateCache := [], compiledTemplates := [("t", "S")] }

/-- C6 (counterexample). The claim says a render whose identifier has no
source fails with the template error and touches no session. False when a
compiled entry for the identifier is still cached: `renderTemplate` serves
it without consulting the file system, so the render succeeds and creates
and acquires a session (`nextId` goes 0 → 1). -/
theorem c6_counterexample :
    c6Env.fs "t" = none ∧
    (render c6Env c6Cache initState "t" [] ⟨none⟩ wEng true true).1 =
      .ok ⟨0, 0, 123, 456, false⟩ ∧
    (render c6Env c6Cache initState "t" [] ⟨none⟩ wEng true true).2.2.nextId
      = 1 :=
  ⟨rfl, rfl, rfl⟩

/-- C6 (amended): whenever the template stage fails — the identifier has no
source and no cached entry, or template execution raises — `render` fails
with exactly that template error and no session is touched: the pool state
(busy and idle collections included) is returned unchanged, and zero
sessions are created or acquired by the request. The cache, however, may
have been mutated by the template stage itself (a fresh template is cached
before its execution raises), and `render` surfaces that mutated cache. -/
theorem c6_template_error_frame (env : TemplateEnv) (c : CacheState)
    (s : PoolState) (templateName : String) (data : TData)
    (opts : RenderOptions) (eng : EngineOutcome) (resetOk replOk : Bool)
    (e : String)
    (h : (renderTemplate env c templateName data).1 = .error e) :
    render env c s templateName data opts eng resetOk replOk =
      (.err e, (renderTemplate env c templateName data).2, s) := by
  unfold render
  rcases hrt : renderTemplate env c templateName data with ⟨r, c1⟩
  rw [hrt] at h
  dsimp only at h
  subst h
  rfl

/-- Fixture for the C6 witness: the source of `t` exists but every template
execution raises (`ejs.render` throws), exercising the path where
`getTemplate` has already populated both caches before the failure. -/
def c6FailEnv : TemplateEnv :=
  { fs := fun n => if n == "t" then some "SRC" else none,
    compile := fun _ _ => .error ("template execution failed") }

theorem c6_witness :
    (renderTemplate c6FailEnv wCache "t" []).1 =
      .error ("template execution failed") ∧
    (renderTemplate c6FailEnv wCache "t" []).2 =
      { templateCache := [("t", "SRC")],
        compiledTemplates := [("t", "SRC")] } ∧
    render c6FailEnv wCache initState "t" [] ⟨none⟩ wEng true true =
      (.err ("template execution failed"),
       (renderTemplate c6FailEnv wCache "t" []).2, initState) :=
  ⟨rfl, rfl,
   c6_template_error_frame c6FailEnv wCache initState "t" [] ⟨none⟩
     wEng true true ("template execution failed") rfl⟩

/-- C7: every successful render returns a bitmap captured with a clip
rectangle from the origin whose width and height are exactly the measured
content extent, and with `omitBackground: false` (opaque background). -/
theorem c7_screenshot_clipped_to_content (env : TemplateEnv) (c : CacheState)
    (s : PoolState) (templateName : String) (data : TData)
    (opts : RenderOptions) (eng : EngineOutcome) (resetOk replOk : Bool)
    (shot : Screenshot)
    (h : (render env c s templateName data opts eng resetOk replOk).1 =
      .ok shot) :
    eng.measured = some (shot.clipW, shot.clipH) ∧ shot.clipX = 0 ∧
    shot.clipY = 0 ∧ shot.omitBackground = false := by
  unfold render at h
  rcases hrt : renderTemplate env c templateName data with ⟨r, c'⟩
  rw [hrt] at h
  cases r with
  | error e =>
    dsimp only at h
    simp at h
  | ok html =>
    dsimp only at h
    rcases ha : acquirePage s with ⟨o, s'⟩
    rw [ha] at h
    cases o with
    | none =>
      dsimp only at h
      simp at h
    | some page =>
      dsimp only at h
      split at h
      · simp at h
      · simp at h
      · rename_i shot' hrel hbody
        dsimp only at h
        simp only [RenderResult.ok.injEq] at h
        subst h
        exact renderBody_ok hbody

theorem c7_witness :
    (render wEnv wCache initState "t" [] ⟨none⟩ wEng true true).1 =
      .ok ⟨0, 0, 123, 456, false⟩ ∧
    wEng.measured = some (123, 456) ∧
    (⟨0, 0, 123, 456, false⟩ : Screenshot).omitBackground = false :=
  ⟨rfl,
   (c7_screenshot_clipped_to_content wEnv wCache initState "t" [] ⟨none⟩ wEng
      true true ⟨0, 0, 123, 456, false⟩ rfl).1,
   (c7_screenshot_clipped_to_content wEnv wCache initState "t" [] ⟨none⟩ wEng
      true true ⟨0, 0, 123, 456, false⟩ rfl).2.2.2⟩

/-- C8: the content-readiness wait is passed timeout
`READINESS_TIMEOUT_MS = 3000` (≤ 3 s), and its outcome is swallowed by
`.catch(() => {})`: whether or not the readiness condition became true
within the bound, `render` proceeds identically through measure and capture,
so a readiness-wait timeout by itself never makes `render` raise. -/
theorem c8_readiness_timeout_soft :
    READINESS_TIMEOUT_MS = 3000 ∧
    ∀ (env : TemplateEnv) (c : CacheState) (s : PoolState)
      (templateName : String) (data : TData) (opts : RenderOptions)
      (eng : EngineOutcome) (resetOk replOk : Bool) (b : Bool),
      render env c s templateName data opts { eng with waitReady := b }
          resetOk replOk =
        render env c s templateName data opts { eng with waitReady := true }
          resetOk replOk := by
  refine ⟨rfl, fun env c s tn d opts eng rOk repOk b => ?_⟩
  cases eng
  rfl

/-- C9: in every state reachable by atomic pool operations, every page's
viewport has height 600 and deviceScaleFactor 2; `createPage` sets viewport
(800, 600, 2); the pipeline's reconfiguration step compares width alone —
it is the identity when the current width equals the requested width
(defaulting to 800), and otherwise sets (requested width, 600, 2). -/
theorem c9_viewport_invariant :
    (∀ (b : Bool) (ops : List PoolOp) (p : Nat),
      ((runOps (startState b) ops).viewport p).height = 600 ∧
      ((runOps (startState b) ops).viewport p).deviceScaleFactor = 2) ∧
    (∀ s : PoolState,
      (createPage s).2.viewport (createPage s).1 = defaultViewport) ∧
    (∀ (s : PoolState) (p : Nat) (opts : RenderOptions),
      (s.viewport p).width = effWidth opts →
      adjustViewportStep s p (effWidth opts) = s) ∧
    (∀ (s : PoolState) (p : Nat) (opts : RenderOptions),
      (s.viewport p).width ≠ effWidth opts →
      (adjustViewportStep s p (effWidth opts)).viewport p =
        ⟨effWidth opts, 600, 2⟩) := by
  refine ⟨fun b ops p => viewportInv_runOps ops (viewportInv_startState b) p,
    fun s => ?_, fun s p opts h => ?_, fun s p opts h => ?_⟩
  · dsimp only [createPage]
    exact Function.update_same _ _ _
  · unfold adjustViewportStep
    rw [if_neg (not_not_intro h)]
  · unfold adjustViewportStep
    rw [if_pos h]
    dsimp only
    exact Function.update_same _ _ _

theorem c9_witness :
    ((runOps (startState false)
      [PoolOp.acquire, PoolOp.adjustViewport 0 ⟨some 420⟩]).viewport 0).height
        = 600 ∧
    ((runOps (startState false)
      [PoolOp.acquire, PoolOp.adjustViewport 0 ⟨some 420⟩]).viewport 0).deviceScaleFactor
        = 2 ∧
    (createPage initState).2.viewport (createPage initState).1 =
      defaultViewport ∧
    adjustViewportStep onePageBusyState 0 (effWidth ⟨some 800⟩) =
      onePageBusyState ∧
    (adjustViewportStep onePageBusyState 0 (effWidth ⟨some 420⟩)).viewport 0 =
      ⟨420, 600, 2⟩ :=
  ⟨(c9_viewport_invariant.1 false
      [PoolOp.acquire, PoolOp.adjustViewport 0 ⟨some 420⟩] 0).1,
   (c9_viewport_invariant.1 false
      [PoolOp.acquire, PoolOp.adjustViewport 0 ⟨some 420⟩] 0).2,
   c9_viewport_invariant.2.1 initState,
   c9_viewport_invariant.2.2.1 onePageBusyState 0 ⟨some 800⟩ rfl,
   c9_viewport_invariant.2.2.2 onePageBusyState 0 ⟨some 420⟩ (by decide)⟩

/-- Fixture for C10: acquire page 0 (created on demand), then release it
twice, both resets succeeding. -/
def doubleReleaseState : PoolState :=
  runOps initState [PoolOp.acquire, PoolOp.release 0 true true,
    PoolOp.release 0 true true]

/-- C10: `releasePage` does not check that its argument is in the busy
collection. After acquiring page 0 and releasing it twice (both resets
succeed), page 0 occupies two slots of the idle stack; the next acquire
returns page 0 and marks it busy, and a second acquire returns page 0 again
while it is still busy — the same session double-issued to two concurrent
consumers. -/
theorem c10_double_release_double_issue :
    doubleReleaseState.pagePool = [0, 0] ∧
    (acquirePage doubleReleaseState).1 = some 0 ∧
    0 ∈ (acquirePage doubleReleaseState).2.busyPages ∧
    (acquirePage (acquirePage doubleReleaseState).2).1 = some 0 :=
  ⟨rfl, rfl, by decide, rfl⟩

end Text2Img

